import Mathlib

/-!
# E5SUB-BOT: binding workflow, renewal cycle and token exchanges

A shallow embedding of `control.go` (package `main`: `BindUser`, `GetBindNum`,
`MSAppIsExist`, `SignTask`) and of the two token exchanges of `model/client.go`
(`NewClient`, `Client.GetTokenWithCode`, `Client.getToken`).

Everything outside these two files (the provider calls `MSFirGetToken`,
`MSGetUserInfo`, `MSGetToken`, `OutLookGetMails`, the store calls `QueryDataByTG`,
`QueryDataAll`, `AddData`, `UpdateData`, the helpers `GetURLValue`, `Get16MD5Encode`,
the libraries `gjson`, `net/http`, `time`, the bot handle) is a parameter: a field of
`Env` or `Http`, acting on an arbitrary world state `W`. Every call of such a
collaborator is recorded, with its arguments and its answer, in a chronological
list of `Call`s, so that statements can speak about what was called and with what.
-/

namespace E5Sub

/-! ## Data model -/

/-- The record `MSData` of package `main`, with the eight fields `control.go` uses
(`tgId` and `uptime` are `int64`, the others `string`). -/
structure MSData where
  tgId : Int
  refreshToken : String
  msId : String
  uptime : Int
  «alias» : String
  clientId : String
  clientSecret : String
  other : String
  deriving DecidableEq, Repr

/-- The part of `tb.Message` that `BindUser` reads: `m.Chat.ID` and `m.Text`. -/
structure Message where
  chatId : Int
  text : String
  deriving DecidableEq, Repr

/-- One observable action of `control.go`: a line on standard output, a bot message,
or a call of a collaborator together with the answer it gave. -/
inductive Call where
  | print (s : String)
  | botSend (chat : Int) (text : String)
  | MSFirGetToken (code cid cse : String) (access refresh : String)
  | MSGetUserInfo (access : String) (info : String)
  | MSGetToken (refresh cid cse : String) (access : String)
  | OutLookGetMails (access : String) (ok : Bool)
  | QueryDataByTG (tgId : Int) (rows : List MSData)
  | QueryDataAll (rows : List MSData)
  | AddData (u : MSData) (ok : Bool) (err : Option String)
  | UpdateData (u : MSData) (ok : Bool) (err : Option String)
  | timeNowUnix (t : Int)
  | timeNowFormat (s : String)
  deriving DecidableEq, Repr

/-- The collaborators of `control.go`. The first three are pure helpers; the others
read and change the world (network, clock, database `db`, bot). A Go `error` is the
optional text of its message. -/
structure Env (W : Type) where
  GetURLValue : String → String → String
  Get16MD5Encode : String → String
  gjsonGet : String → String → String
  MSFirGetToken : String → String → String → W → (String × String) × W
  MSGetUserInfo : String → W → String × W
  MSGetToken : String → String → String → W → String × W
  OutLookGetMails : String → W → Bool × W
  QueryDataByTG : Int → W → List MSData × W
  QueryDataAll : W → List MSData × W
  AddData : MSData → W → (Bool × Option String) × W
  UpdateData : MSData → W → (Bool × Option String) × W
  timeNowUnix : W → Int × W
  timeNowFormat : String → W → String × W
  botSend : Int → String → W → W

/-- The running system: the state of the outside world and the calls made so far,
oldest first. -/
structure Sys (W : Type) where
  world : W
  calls : List Call

variable {W : Type}

/-- Record one call. -/
def Sys.emit (s : Sys W) (c : Call) : Sys W :=
  { s with calls := s.calls ++ [c] }

/-- Go `fmt.Print`-family output. -/
def Sys.print (s : Sys W) (line : String) : Sys W :=
  s.emit (Call.print line)

/-- Go `%s` of an `error` value. -/
def fmtErr : Option String → String
  | none => "%!s(<nil>)"
  | some e => e

/-! ## Collaborator calls, recorded -/

/-- Call `bot.Send(m.Chat, text)`. -/
def doBotSend (env : Env W) (chat : Int) (text : String) (s : Sys W) : Sys W :=
  { world := env.botSend chat text s.world, calls := s.calls ++ [Call.botSend chat text] }

/-- Call `MSFirGetToken(code, cid, cse)`, giving `(access, refresh)`. -/
def doMSFirGetToken (env : Env W) (code cid cse : String) (s : Sys W) :
    (String × String) × Sys W :=
  let r := env.MSFirGetToken code cid cse s.world
  (r.1, { world := r.2, calls := s.calls ++ [Call.MSFirGetToken code cid cse r.1.1 r.1.2] })

/-- Call `MSGetUserInfo(access)`, giving the profile text. -/
def doMSGetUserInfo (env : Env W) (access : String) (s : Sys W) : String × Sys W :=
  let r := env.MSGetUserInfo access s.world
  (r.1, { world := r.2, calls := s.calls ++ [Call.MSGetUserInfo access r.1] })

/-- Call `MSGetToken(refresh, cid, cse)`, giving the access credential. -/
def doMSGetToken (env : Env W) (refresh cid cse : String) (s : Sys W) : String × Sys W :=
  let r := env.MSGetToken refresh cid cse s.world
  (r.1, { world := r.2, calls := s.calls ++ [Call.MSGetToken refresh cid cse r.1] })

/-- Call `OutLookGetMails(access)`. -/
def doOutLookGetMails (env : Env W) (access : String) (s : Sys W) : Bool × Sys W :=
  let r := env.OutLookGetMails access s.world
  (r.1, { world := r.2, calls := s.calls ++ [Call.OutLookGetMails access r.1] })

/-- Call `QueryDataByTG(db, tgId)`. -/
def doQueryDataByTG (env : Env W) (tgId : Int) (s : Sys W) : List MSData × Sys W :=
  let r := env.QueryDataByTG tgId s.world
  (r.1, { world := r.2, calls := s.calls ++ [Call.QueryDataByTG tgId r.1] })

/-- Call `QueryDataAll(db)`. -/
def doQueryDataAll (env : Env W) (s : Sys W) : List MSData × Sys W :=
  let r := env.QueryDataAll s.world
  (r.1, { world := r.2, calls := s.calls ++ [Call.QueryDataAll r.1] })

/-- Call `AddData(db, u)`, giving `(ok, err)`. -/
def doAddData (env : Env W) (u : MSData) (s : Sys W) : (Bool × Option String) × Sys W :=
  let r := env.AddData u s.world
  (r.1, { world := r.2, calls := s.calls ++ [Call.AddData u r.1.1 r.1.2] })

/-- Call `UpdateData(db, u)`, giving `(ok, err)`. -/
def doUpdateData (env : Env W) (u : MSData) (s : Sys W) : (Bool × Option String) × Sys W :=
  let r := env.UpdateData u s.world
  (r.1, { world := r.2, calls := s.calls ++ [Call.UpdateData u r.1.1 r.1.2] })

/-- Call `time.Now().Unix()`. -/
def doTimeNowUnix (env : Env W) (s : Sys W) : Int × Sys W :=
  let r := env.timeNowUnix s.world
  (r.1, { world := r.2, calls := s.calls ++ [Call.timeNowUnix r.1] })

/-- Call `time.Now().Format(layout)`. -/
def doTimeNowFormat (env : Env W) (layout : String) (s : Sys W) : String × Sys W :=
  let r := env.timeNowFormat layout s.world
  (r.1, { world := r.2, calls := s.calls ++ [Call.timeNowFormat r.1] })

/-! ## `strings.Split(s, " ")` -/

/-- Cut a character list at every space; `acc` holds the current piece, reversed. -/
def Split.go : List Char → List Char → List String
  | [], acc => [String.mk acc.reverse]
  | c :: cs, acc =>
    if c = ' ' then String.mk acc.reverse :: Split.go cs [] else Split.go cs (c :: acc)

/-- Go `strings.Split(s, " ")`: the pieces of `s` between consecutive space
characters, empty pieces included; one more piece than there are spaces. -/
def Split (s : String) : List String :=
  Split.go s.data []

/-! ## control.go -/

/-- The early-returning `for _, res = range data` loop of `MSAppIsExist`. -/
def MSAppIsExist.scan (clientId : String) : List MSData → Bool
  | [] => false
  | res :: rest => if res.msId = clientId then true else MSAppIsExist.scan clientId rest

/-- Function `MSAppIsExist(tgId, clientId)`: query the rows of `tgId`, return true at the first
row whose `msId` equals `clientId`. -/
def MSAppIsExist (env : Env W) (tgId : Int) (clientId : String) (s : Sys W) : Bool × Sys W :=
  let q := doQueryDataByTG env tgId s
  (MSAppIsExist.scan clientId q.1, q.2)

/-- Function `GetBindNum(tgId)`: the number of rows of the principal. -/
def GetBindNum (env : Env W) (tgId : Int) (s : Sys W) : Nat × Sys W :=
  let q := doQueryDataByTG env tgId s
  (q.1.length, q.2)

/-- Failure text of `BindUser` for a malformed input. -/
def errFormat : String := "授权格式错误"

/-- Failure text of `BindUser` for an empty refresh credential. -/
def errToken : String := "获取RefreshToken失败"

/-- Failure text of `BindUser` for an empty profile. -/
def errInfo : String := "获取用户信息错误"

/-- Failure text of `BindUser` for a binding that exists already. -/
def errDuplicate : String := "该应用已经绑定过了，无需重复绑定"

/-- Failure text of `BindUser` for a failed `AddData`. -/
def errPersist : String := "数据库写入错误"

/-- Function `BindUser(m, cid, cse)`: returns `""` on success, else the failure text. -/
def BindUser (env : Env W) (m : Message) (cid cse : String) (s : Sys W) : String × Sys W :=
  let s := s.print (toString m.chatId ++ " Begin Bind\n")
  let tmp := Split m.text
  if tmp.length ≠ 2 then
    let s := s.print (toString m.chatId ++ " Bind error:Wrong Bind Format\n")
    (errFormat, s)
  else
    let s := s.print ("alias: " ++ tmp.getD 1 "" ++ "\n")
    let aliasTxt := tmp.getD 1 ""
    let code := env.GetURLValue (tmp.getD 0 "") "code"
    let x := doMSFirGetToken env code cid cse s
    let access := x.1.1
    let refresh := x.1.2
    let s := x.2
    if refresh = "" then
      let s := s.print (toString m.chatId ++ " Bind error:GetRefreshToken\n")
      (errToken, s)
    else
      let s := doBotSend env m.chatId "Token获取成功!" s
      let i := doMSGetUserInfo env access s
      let info := i.1
      let s := i.2
      if info = "" then
        let s := s.print (toString m.chatId ++ " Bind error:Getinfo\n")
        (errInfo, s)
      else
        let msId := env.Get16MD5Encode (env.gjsonGet info "id")
        let t := doTimeNowUnix env s
        let s := t.2.print (toString t.1 ++ "\n")
        let u : MSData :=
          { tgId := m.chatId, refreshToken := refresh, msId := msId, uptime := t.1,
            «alias» := aliasTxt, clientId := cid, clientSecret := cse, other := "" }
        let e := MSAppIsExist env u.tgId u.clientId s
        let s := e.2
        if e.1 then
          let s := s.print (toString m.chatId ++ " Bind error:MSUserHasExisted\n")
          (errDuplicate, s)
        else
          let s := doBotSend env m.chatId
            ("MS_ID(MD5)： " ++ u.msId ++ "\nuserPrincipalName： "
              ++ env.gjsonGet info "userPrincipalName" ++ "\ndisplayName： "
              ++ env.gjsonGet info "displayName" ++ "\n") s
          let a := doAddData env u s
          let s := a.2
          if !a.1.1 then
            let s := s.print (toString m.chatId ++ " Bind error: " ++ fmtErr a.1.2 ++ "\n")
            (errPersist, s)
          else
            let s := s.print (toString m.chatId ++ " Bind Successfully!\n")
            ("", s)

/-- The body of the `for _, u := range data` loop of `SignTask`, for one binding. -/
def SignTask.body (env : Env W) (u : MSData) (s : Sys W) : Sys W :=
  let g := doMSGetToken env u.refreshToken u.clientId u.clientSecret s
  let access := g.1
  let s := g.2
  if access = "" then
    s.print (u.msId ++ "Sign ERROR:AccessTokenGet\n")
  else
    let o := doOutLookGetMails env access s
    let s := o.2
    if !o.1 then
      s.print (u.msId ++ "Sign ERROR:ReadMails\n")
    else
      let s := s.print (u.msId ++ " Sign OK!\n")
      let t := doTimeNowUnix env s
      let u := { u with uptime := t.1 }
      let r := doUpdateData env u t.2
      let s := r.2
      if !r.1.1 then
        s.print (u.msId ++ " Update Data ERROR: " ++ fmtErr r.1.2 ++ "\n")
      else
        s

/-- The `for _, u := range data` loop of `SignTask`. -/
def SignTask.loop (env : Env W) : List MSData → Sys W → Sys W
  | [], s => s
  | u :: rest, s => SignTask.loop env rest (SignTask.body env u s)

/-- Function `SignTask()`: one renewal cycle over all stored bindings. -/
def SignTask (env : Env W) (s : Sys W) : Sys W :=
  let s := s.print "----Task Begin----\n"
  let f := doTimeNowFormat env "2006-01-02 15:04:05" s
  let s := f.2.print ("Time:" ++ f.1 ++ "\n")
  let q := doQueryDataAll env s
  let s := SignTask.loop env q.1 q.2
  s.print "----Task End----\n"

/-! ## Reading the call list -/

/-- The call is a refresh exchange (`MSGetToken`). -/
def Call.isExchange : Call → Bool
  | .MSGetToken _ _ _ _ => true
  | _ => false

/-- The call is a mail-listing probe (`OutLookGetMails`). -/
def Call.isProbe : Call → Bool
  | .OutLookGetMails _ _ => true
  | _ => false

/-- The call goes to the store: a query, `AddData` or `UpdateData`. -/
def Call.isStoreCall : Call → Bool
  | .QueryDataByTG _ _ => true
  | .QueryDataAll _ => true
  | .AddData _ _ _ => true
  | .UpdateData _ _ _ => true
  | _ => false

/-- The call is only a line on standard output. -/
def Call.isPrint : Call → Bool
  | .print _ => true
  | _ => false

/-- The record handed to `UpdateData`, when the call is one. -/
def Call.updateRec : Call → Option MSData
  | .UpdateData u _ _ => some u
  | _ => none

/-- The record handed to `AddData`, when the call is one. -/
def Call.addRec : Call → Option MSData
  | .AddData u _ _ => some u
  | _ => none

/-- The call is a refresh exchange that gave a non-empty access credential. -/
def Call.exchangeOK : Call → Bool
  | .MSGetToken _ _ _ access => decide (access ≠ "")
  | _ => false

/-- The call is a mail-listing probe that succeeded. -/
def Call.probeOK : Call → Bool
  | .OutLookGetMails _ ok => ok
  | _ => false

/-- The row `u` with its `uptime` replaced by `t`, all other fields kept. -/
def MSData.withUptime (u : MSData) (t : Int) : MSData :=
  { u with uptime := t }

/-- The calls of one pass contain a refresh exchange that gave a non-empty access
credential and a probe that succeeded. -/
def passSucceeded (seg : List Call) : Bool :=
  seg.any Call.exchangeOK && seg.any Call.probeOK

/-- What one pass of the renewal loop does for binding `u`, read off the calls `seg` of
that pass: exactly one refresh exchange, with the stored credentials of `u`; a probe
only after a successful exchange, with the access credential it gave; a store call
only after a successful probe, and then exactly one, the `UpdateData` of `u` with the
`uptime` read from the clock in that pass. -/
def Renewal (u : MSData) (seg : List Call) : Prop :=
  ∃ access,
    seg.filter Call.isExchange
      = [Call.MSGetToken u.refreshToken u.clientId u.clientSecret access] ∧
    (access = "" → seg.filter Call.isProbe = [] ∧ seg.filter Call.isStoreCall = []) ∧
    (access ≠ "" → ∃ ok, seg.filter Call.isProbe = [Call.OutLookGetMails access ok] ∧
      (ok = false → seg.filter Call.isStoreCall = []) ∧
      (ok = true → ∃ t res err, Call.timeNowUnix t ∈ seg ∧
        seg.filter Call.isStoreCall = [Call.UpdateData { u with uptime := t } res err]))

/-! ## Whitespace-separated tokens, as the specification words the bind format -/

/-- Go `unicode.IsSpace` on the Latin-1 range. -/
def isSpace (c : Char) : Bool :=
  c = ' ' || c = '\t' || c = '\n' || c = '\r' || c.val = 0x0B || c.val = 0x0C
    || c.val = 0x85 || c.val = 0xA0

/-- Cut a character list at every run of white space; `acc` holds the current token,
reversed; empty tokens are dropped. -/
def whitespaceTokens.go : List Char → List Char → List String
  | [], acc => if acc = [] then [] else [String.mk acc.reverse]
  | c :: cs, acc =>
    if isSpace c then
      (if acc = [] then whitespaceTokens.go cs []
       else String.mk acc.reverse :: whitespaceTokens.go cs [])
    else whitespaceTokens.go cs (c :: acc)

/-- The whitespace-separated tokens of a text (Go `strings.Fields`): this is the
reading of the bind format in the specification, not what `BindUser` computes. -/
def whitespaceTokens (s : String) : List String :=
  whitespaceTokens.go s.data []

/-! ## Concrete collaborators, for evaluating the code on explicit inputs -/

/-- A start with no call made yet. -/
def Sys.start (w : W) : Sys W :=
  { world := w, calls := [] }

/-- A stored binding of principal `1` for the application with client id `"X"`. -/
def rowX : MSData :=
  { tgId := 1, refreshToken := "r1", msId := "0123456789abcdef", uptime := 500,
    «alias» := "alice", clientId := "X", clientSecret := "S", other := "" }

/-- A second stored binding, of principal `2`. -/
def rowY : MSData :=
  { tgId := 2, refreshToken := "q1", msId := "fedcba9876543210", uptime := 600,
    «alias» := "bob", clientId := "Y", clientSecret := "T", other := "" }

/-- Collaborators that always succeed, over a store holding `rowX` for principal `1`
and nothing for the others; the world is not used. -/
def okEnv : Env Unit where
  GetURLValue := fun _ _ => "abc123"
  Get16MD5Encode := fun x => "md5(" ++ x ++ ")"
  gjsonGet := fun _ k => if k = "id" then "u1" else "Alice"
  MSFirGetToken := fun _ _ _ w => (("a0", "r0"), w)
  MSGetUserInfo := fun _ w => ("profile", w)
  MSGetToken := fun _ _ _ w => ("a1", w)
  OutLookGetMails := fun _ w => (true, w)
  QueryDataByTG := fun tgId w => (if tgId = 1 then [rowX] else [], w)
  QueryDataAll := fun w => ([rowX], w)
  AddData := fun _ w => ((true, none), w)
  UpdateData := fun _ w => ((true, none), w)
  timeNowUnix := fun w => (1000, w)
  timeNowFormat := fun _ w => ("2024-01-01 00:00:00", w)
  botSend := fun _ _ w => w

/-- A provider with rotating refresh credentials: the world is the refresh credential
the provider accepts at present. An exchange with that credential gives the access
credential `"a1"` and makes the provider issue, and from then on accept only, the
credential with `"+"` appended; any other credential is refused. The store holds
`rowX`, whose `refreshToken` is `"r1"`. -/
def rotatingEnv : Env String where
  GetURLValue := fun _ _ => "abc123"
  Get16MD5Encode := fun x => "md5(" ++ x ++ ")"
  gjsonGet := fun _ k => if k = "id" then "u1" else "Alice"
  MSFirGetToken := fun _ _ _ w => (("a0", w), w)
  MSGetUserInfo := fun _ w => ("profile", w)
  MSGetToken := fun refresh _ _ w => if refresh = w then ("a1", w ++ "+") else ("", w)
  OutLookGetMails := fun _ w => (true, w)
  QueryDataByTG := fun tgId w => (if tgId = 1 then [rowX] else [], w)
  QueryDataAll := fun w => ([rowX], w)
  AddData := fun _ w => ((true, none), w)
  UpdateData := fun _ w => ((true, none), w)
  timeNowUnix := fun w => (1000, w)
  timeNowFormat := fun _ w => ("2024-01-01 00:00:00", w)
  botSend := fun _ _ w => w

/-- Collaborators for a cycle over `rowX` then `rowY` in which the exchange of `rowX`
(refresh credential `"r1"`) fails and everything else succeeds. -/
def mixedEnv : Env Unit where
  GetURLValue := fun _ _ => "abc123"
  Get16MD5Encode := fun x => "md5(" ++ x ++ ")"
  gjsonGet := fun _ k => if k = "id" then "u1" else "Alice"
  MSFirGetToken := fun _ _ _ w => (("a0", "r0"), w)
  MSGetUserInfo := fun _ w => ("profile", w)
  MSGetToken := fun refresh _ _ w => (if refresh = "r1" then "" else "a1", w)
  OutLookGetMails := fun _ w => (true, w)
  QueryDataByTG := fun _ w => ([], w)
  QueryDataAll := fun w => ([rowX, rowY], w)
  AddData := fun _ w => ((true, none), w)
  UpdateData := fun _ w => ((true, none), w)
  timeNowUnix := fun w => (1000, w)
  timeNowFormat := fun _ w => ("2024-01-01 00:00:00", w)
  botSend := fun _ _ w => w

/-! ## The bind input and the record of a bind, as the claims word them -/

/-- The call is a code exchange (`MSFirGetToken`). -/
def Call.isCodeExchange : Call → Bool
  | .MSFirGetToken _ _ _ _ _ => true
  | _ => false

/-- The call is a profile fetch (`MSGetUserInfo`). -/
def Call.isProfileFetch : Call → Bool
  | .MSGetUserInfo _ _ => true
  | _ => false

/-- The text consists of the two tokens `first` and `second` with one space between
them, neither token containing a space. -/
def twoPieces (text first second : String) : Prop :=
  text.data = first.data ++ ' ' :: second.data ∧ ' ' ∉ first.data ∧ ' ' ∉ second.data

/-- The binding a successful bind stores: the caller's chat id, the refresh
credential of the code exchange, the digest of the profile's `"id"`, the clock
reading, the alias, the application credentials and an empty `other`. -/
def bindRecord (env : Env W) (m : Message) (cid cse refresh info : String) (t : Int)
    (second : String) : MSData :=
  { tgId := m.chatId, refreshToken := refresh,
    msId := env.Get16MD5Encode (env.gjsonGet info "id"), uptime := t,
    «alias» := second, clientId := cid, clientSecret := cse, other := "" }

/-- The bot message sent before the binding is stored. -/
def bindBanner (env : Env W) (info : String) : String :=
  "MS_ID(MD5)： " ++ env.Get16MD5Encode (env.gjsonGet info "id") ++ "\nuserPrincipalName： "
    ++ env.gjsonGet info "userPrincipalName" ++ "\ndisplayName： "
    ++ env.gjsonGet info "displayName" ++ "\n"

/-! ## model/client.go -/

/-- The record `Client` of package `model`. -/
structure Client where
  ID : Int
  TgId : Int
  RefreshToken : String
  MsId : String
  Uptime : Int
  Alias : String
  ClientId : String
  ClientSecret : String
  Other : String
  deriving DecidableEq, Repr

/-- Constant `msApiUrl`. -/
def msApiUrl : String := "https://login.microsoftonline.com"

/-- Constant `msGraUrl`. -/
def msGraUrl : String := "https://graph.microsoft.com"

/-- Constant `redirectUri`. -/
def redirectUri : String := "http://localhost/e5sub"

/-- Constant `scope`. -/
def scope : String := "openid offline_access mail.read user.read"

/-- An outgoing request as built by `http.NewRequest`: method, URL and body. -/
structure Request where
  method : String
  url : String
  body : String
  deriving DecidableEq, Repr

/-- The libraries `model/client.go` calls: `gjson.Get(..).String()`,
`url.Values.Encode` on the fields in the order they were added, `http.NewRequest`,
the shared `client.Do`, `ioutil.ReadAll` on the response body and the deferred
`resp.Body.Close()`. `R` is the type of responses; a Go `error` is the text of its
message. -/
structure Http (W R : Type) where
  gjsonGet : String → String → String
  formEncode : List (String × String) → String
  NewRequest : String → String → String → Except String Request
  Do : Request → W → Except String R × W
  ReadAll : R → W → Except String String × W
  Close : R → W → W

/-- Function `NewClient(clientId, clientSecret)`: every other field has its zero value. -/
def NewClient (clientId clientSecret : String) : Client :=
  { ID := 0, TgId := 0, RefreshToken := "", MsId := "", Uptime := 0, Alias := "",
    ClientId := clientId, ClientSecret := clientSecret, Other := "" }

/-- Method `(c *Client) GetTokenWithCode(code)`: the client after the call, the returned
error (`none` for `nil`) and the world after the call. -/
def Client.GetTokenWithCode {W R : Type} (h : Http W R) (c : Client) (code : String) (w : W) :
    (Client × Option String) × W :=
  let body := h.formEncode
    [("client_id", c.ClientId), ("client_secret", c.ClientSecret),
      ("grant_type", "authorization_code"), ("scope", scope), ("code", code),
      ("redirect_uri", redirectUri)]
  match h.NewRequest "POST" (msApiUrl ++ "/common/oauth2/v2.0/token") body with
  | .error err => ((c, some err), w)
  | .ok req =>
    match h.Do req w with
    | (.error err, w1) => ((c, some err), w1)
    | (.ok resp, w1) =>
      match h.ReadAll resp w1 with
      | (.error err, w2) => ((c, some err), h.Close resp w2)
      | (.ok content, w2) =>
        if h.gjsonGet content "token_type" = "Bearer" then
          (({ c with RefreshToken := h.gjsonGet content "refresh_token" }, none),
            h.Close resp w2)
        else
          ((c, some content), h.Close resp w2)

/-- Method `(c *Client) getToken()`: the client after the call, the returned access token
and error (`none` for `nil`), and the world after the call. -/
def Client.getToken {W R : Type} (h : Http W R) (c : Client) (w : W) :
    (Client × String × Option String) × W :=
  let body := h.formEncode
    [("client_id", c.ClientId), ("client_secret", c.ClientSecret),
      ("grant_type", "refresh_token"), ("scope", scope), ("refresh_token", c.RefreshToken),
      ("redirect_uri", redirectUri)]
  match h.NewRequest "POST" (msApiUrl ++ "/common/oauth2/v2.0/token") body with
  | .error err => ((c, "", some err), w)
  | .ok req =>
    match h.Do req w with
    | (.error err, w1) => ((c, "", some err), w1)
    | (.ok resp, w1) =>
      match h.ReadAll resp w1 with
      | (.error err, w2) => ((c, "", some err), h.Close resp w2)
      | (.ok content, w2) =>
        if h.gjsonGet content "token_type" = "Bearer" then
          (({ c with RefreshToken := h.gjsonGet content "refresh_token" },
            h.gjsonGet content "access_token", none), h.Close resp w2)
        else
          ((c, "", some (h.gjsonGet content "error")), h.Close resp w2)

/-- The request body of a code exchange by `c`. -/
def codeForm {W R : Type} (h : Http W R) (c : Client) (code : String) : String :=
  h.formEncode
    [("client_id", c.ClientId), ("client_secret", c.ClientSecret),
      ("grant_type", "authorization_code"), ("scope", scope), ("code", code),
      ("redirect_uri", redirectUri)]

/-- The request body of a refresh exchange by `c`. -/
def refreshForm {W R : Type} (h : Http W R) (c : Client) : String :=
  h.formEncode
    [("client_id", c.ClientId), ("client_secret", c.ClientSecret),
      ("grant_type", "refresh_token"), ("scope", scope), ("refresh_token", c.RefreshToken),
      ("redirect_uri", redirectUri)]

/-- The exchange reached the provider and its response body was read in full:
`http.NewRequest`, `client.Do` and `ioutil.ReadAll` all returned without error,
the last with `content`. -/
def bodyRead {W R : Type} (h : Http W R) (form : String) (w : W) (content : String) : Prop :=
  ∃ req resp w1 w2,
    h.NewRequest "POST" (msApiUrl ++ "/common/oauth2/v2.0/token") form = .ok req ∧
    h.Do req w = (.ok resp, w1) ∧ h.ReadAll resp w1 = (.ok content, w2)

/-- A provider stub: every request is answered, and the response is the text kept in
the world. `gjson` is imitated on three fixed bodies: `"bearer-body"` has token type
`Bearer`, refresh token `"r2"` and access token `"a2"`; `"mac-body"` has token type
`MAC` and the error field `"invalid_grant"`. -/
def stubHttp : Http String String where
  gjsonGet := fun content key =>
    if content = "bearer-body" then
      (if key = "token_type" then "Bearer" else if key = "refresh_token" then "r2"
       else if key = "access_token" then "a2" else "")
    else if content = "mac-body" then
      (if key = "token_type" then "MAC" else if key = "error" then "invalid_grant" else "")
    else ""
  formEncode := fun kvs => String.intercalate "&" (kvs.map (fun kv => kv.1 ++ "=" ++ kv.2))
  NewRequest := fun method url body => .ok { method := method, url := url, body := body }
  Do := fun _ w => (.ok w, w)
  ReadAll := fun resp w => (.ok resp, w)
  Close := fun _ w => w

/-- A client as loaded from the store, holding the refresh credential `"r1"`. -/
def storedClient : Client :=
  { NewClient "X" "S" with TgId := 1, RefreshToken := "r1", MsId := "0123456789abcdef" }

/-! ## One renewal pass and one cycle, stated on the answers of the collaborators -/

/-- The calls of a pass other than log lines. -/
def effects (seg : List Call) : List Call :=
  seg.filter (fun c => !c.isPrint)

/-- One pass over binding `u`, begun in world `w`, as the renewal cycle is described:
the refresh exchange is made with the stored credentials of `u`; when it answers an
empty access credential nothing else is done; else the mail-listing probe is made
with that access credential; when the probe fails nothing else is done; else the
clock is read and `UpdateData` is called with `u` and the new `uptime`, whatever it
answers. `seg` are the calls of the pass and the last argument the world it leaves. -/
inductive Pass (env : Env W) (u : MSData) (w : W) : List Call → W → Prop
  | refreshFailure (w1 : W) (seg : List Call)
      (hx : env.MSGetToken u.refreshToken u.clientId u.clientSecret w = ("", w1))
      (hseg : effects seg = [Call.MSGetToken u.refreshToken u.clientId u.clientSecret ""]) :
      Pass env u w seg w1
  | probeFailure (access : String) (w1 w2 : W) (seg : List Call)
      (hx : env.MSGetToken u.refreshToken u.clientId u.clientSecret w = (access, w1))
      (ha : access ≠ "")
      (hp : env.OutLookGetMails access w1 = (false, w2))
      (hseg : effects seg = [Call.MSGetToken u.refreshToken u.clientId u.clientSecret access,
        Call.OutLookGetMails access false]) :
      Pass env u w seg w2
  | renewed (access : String) (w1 w2 : W) (t : Int) (w3 : W) (ok : Bool)
      (err : Option String) (w4 : W) (seg : List Call)
      (hx : env.MSGetToken u.refreshToken u.clientId u.clientSecret w = (access, w1))
      (ha : access ≠ "")
      (hp : env.OutLookGetMails access w1 = (true, w2))
      (ht : env.timeNowUnix w2 = (t, w3))
      (hu : env.UpdateData (u.withUptime t) w3 = ((ok, err), w4))
      (hseg : effects seg = [Call.MSGetToken u.refreshToken u.clientId u.clientSecret access,
        Call.OutLookGetMails access true, Call.timeNowUnix t,
        Call.UpdateData (u.withUptime t) ok err]) :
      Pass env u w seg w4

/-- A cycle over the rows in list order: one `Pass` per row, each begun in the world
the pass before it left, whatever the outcome of that pass. -/
inductive Cycle (env : Env W) : List MSData → W → List (List Call) → W → Prop
  | nil (w : W) : Cycle env [] w [] w
  | cons (u : MSData) (rest : List MSData) (w w1 w2 : W) (seg : List Call)
      (segs : List (List Call)) (hpass : Pass env u w seg w1)
      (hrest : Cycle env rest w1 segs w2) :
      Cycle env (u :: rest) w (seg :: segs) w2

theorem SignTask.body_calls (env : Env W) (u : MSData) (s : Sys W) :
    ∃ seg, (SignTask.body env u s).calls = s.calls ++ seg ∧ Renewal u seg := by
  unfold SignTask.body
  simp only [doMSGetToken, doOutLookGetMails, doTimeNowUnix, doUpdateData, Sys.print, Sys.emit]
  generalize env.MSGetToken u.refreshToken u.clientId u.clientSecret s.world = g
  by_cases h1 : g.1 = ""
  · refine ⟨[Call.MSGetToken u.refreshToken u.clientId u.clientSecret g.1,
      Call.print (u.msId ++ "Sign ERROR:AccessTokenGet\n")], ?_, g.1, ?_⟩
    · simp [h1]
    · simp [Call.isExchange, Call.isProbe, Call.isStoreCall, h1]
  · generalize env.OutLookGetMails g.1 g.2 = o
    by_cases h2 : o.1 = true
    · generalize env.timeNowUnix o.2 = t
      generalize env.UpdateData { u with uptime := t.1 } t.2 = r
      by_cases h3 : r.1.1 = true
      · refine ⟨[Call.MSGetToken u.refreshToken u.clientId u.clientSecret g.1,
          Call.OutLookGetMails g.1 o.1, Call.print (u.msId ++ " Sign OK!\n"),
          Call.timeNowUnix t.1, Call.UpdateData { u with uptime := t.1 } r.1.1 r.1.2], ?_,
          g.1, ?_⟩
        · simp [h1, h2, h3]
        · simp [Call.isExchange, Call.isProbe, Call.isStoreCall, h1, h2]
      · refine ⟨[Call.MSGetToken u.refreshToken u.clientId u.clientSecret g.1,
          Call.OutLookGetMails g.1 o.1, Call.print (u.msId ++ " Sign OK!\n"),
          Call.timeNowUnix t.1, Call.UpdateData { u with uptime := t.1 } r.1.1 r.1.2,
          Call.print (u.msId ++ " Update Data ERROR: " ++ fmtErr r.1.2 ++ "\n")], ?_, g.1, ?_⟩
        · simp [h1, h2, h3]
        · simp [Call.isExchange, Call.isProbe, Call.isStoreCall, h1, h2]
    · refine ⟨[Call.MSGetToken u.refreshToken u.clientId u.clientSecret g.1,
        Call.OutLookGetMails g.1 o.1, Call.print (u.msId ++ "Sign ERROR:ReadMails\n")], ?_,
        g.1, ?_⟩
      · simp [h1, h2]
      · simp [Call.isExchange, Call.isProbe, Call.isStoreCall, h1, h2]

theorem SignTask.loop_calls (env : Env W) (data : List MSData) (s : Sys W) :
    ∃ segs, (SignTask.loop env data s).calls = s.calls ++ segs.flatten ∧
      List.Forall₂ Renewal data segs := by
  induction data generalizing s with
  | nil => exact ⟨[], by simp [SignTask.loop], List.Forall₂.nil⟩
  | cons u rest ih =>
    obtain ⟨seg, hseg, hren⟩ := SignTask.body_calls env u s
    obtain ⟨segs, hsegs, hall⟩ := ih (SignTask.body env u s)
    exact ⟨seg :: segs, by simp [SignTask.loop, hsegs, hseg], List.Forall₂.cons hren hall⟩

/-- The calls of a whole cycle: two log lines and the clock, the load of all rows,
then one pass per row in list order, then the closing log line. -/
theorem SignTask.calls_shape (env : Env W) (s : Sys W) :
    ∃ tf rows segs,
      (SignTask env s).calls
        = s.calls ++ [Call.print "----Task Begin----\n", Call.timeNowFormat tf,
            Call.print ("Time:" ++ tf ++ "\n"), Call.QueryDataAll rows]
          ++ segs.flatten ++ [Call.print "----Task End----\n"] ∧
      List.Forall₂ Renewal rows segs := by
  unfold SignTask
  simp only [doTimeNowFormat, doQueryDataAll, Sys.print, Sys.emit]
  generalize env.timeNowFormat "2006-01-02 15:04:05" s.world = f
  generalize env.QueryDataAll f.2 = q
  obtain ⟨segs, hsegs, hall⟩ := SignTask.loop_calls env q.1
    { world := q.2, calls := s.calls ++ [Call.print "----Task Begin----\n"]
        ++ [Call.timeNowFormat f.1] ++ [Call.print ("Time:" ++ f.1 ++ "\n")]
        ++ [Call.QueryDataAll q.1] }
  refine ⟨f.1, q.1, segs, ?_, hall⟩
  rw [hsegs]
  simp

theorem any_exchangeOK_filter (seg : List Call) :
    seg.any Call.exchangeOK = (seg.filter Call.isExchange).any Call.exchangeOK := by
  induction seg with
  | nil => rfl
  | cons c cs ih => cases c <;> simp [List.filter, Call.isExchange, Call.exchangeOK, ih]

theorem any_probeOK_filter (seg : List Call) :
    seg.any Call.probeOK = (seg.filter Call.isProbe).any Call.probeOK := by
  induction seg with
  | nil => rfl
  | cons c cs ih => cases c <;> simp [List.filter, Call.isProbe, Call.probeOK, ih]

/-- The store writes of one pass, by its outcome. -/
theorem Renewal.writes {u : MSData} {seg : List Call} (h : Renewal u seg) :
    (passSucceeded seg = true → ∃ t res err, Call.timeNowUnix t ∈ seg ∧
      seg.filter Call.isStoreCall = [Call.UpdateData { u with uptime := t } res err]) ∧
    (passSucceeded seg = false → seg.filter Call.isStoreCall = []) := by
  obtain ⟨access, hex, hfail, hgo⟩ := h
  have hpass : passSucceeded seg
      = (decide (access ≠ "") && (seg.filter Call.isProbe).any Call.probeOK) := by
    simp [passSucceeded, any_exchangeOK_filter seg, any_probeOK_filter seg, hex,
      Call.exchangeOK]
  by_cases ha : access = ""
  · obtain ⟨_, hw⟩ := hfail ha
    simp [hpass, ha, hw]
  · obtain ⟨ok, hp, hno, hyes⟩ := hgo ha
    cases ok with
    | false => simp [hpass, ha, hp, Call.probeOK, hno rfl]
    | true =>
      obtain ⟨t, res, err, ht, hw⟩ := hyes rfl
      simp only [hpass, hp, ha]
      refine ⟨fun _ => ⟨t, res, err, ht, hw⟩, ?_⟩
      simp [Call.probeOK, ha]

theorem forall₂_imp_of {α β : Type} {R S : α → β → Prop} (h : ∀ a b, R a b → S a b) :
    ∀ {l1 : List α} {l2 : List β}, List.Forall₂ R l1 l2 → List.Forall₂ S l1 l2
  | _, _, List.Forall₂.nil => List.Forall₂.nil
  | _, _, List.Forall₂.cons hab t => List.Forall₂.cons (h _ _ hab) (forall₂_imp_of h t)

theorem forall₂_exists_left {α β : Type} {R : α → β → Prop} :
    ∀ {l1 : List α} {l2 : List β}, List.Forall₂ R l1 l2 → ∀ b ∈ l2, ∃ a ∈ l1, R a b
  | _, _, List.Forall₂.nil, b, hb => by simp at hb
  | _, _, List.Forall₂.cons hab t, b, hb => by
    rcases List.mem_cons.1 hb with rfl | hb
    · exact ⟨_, List.mem_cons_self _ _, hab⟩
    · obtain ⟨a, ha, hr⟩ := forall₂_exists_left t b hb
      exact ⟨a, List.mem_cons_of_mem _ ha, hr⟩

/-- The loop body on binding `u` is one `Pass`, and its calls satisfy `Renewal`. -/
theorem SignTask.body_pass (env : Env W) (u : MSData) (s : Sys W) :
    ∃ seg, (SignTask.body env u s).calls = s.calls ++ seg ∧ Renewal u seg ∧
      Pass env u s.world seg (SignTask.body env u s).world := by
  unfold SignTask.body
  simp only [doMSGetToken, doOutLookGetMails, doTimeNowUnix, doUpdateData, Sys.print, Sys.emit]
  generalize hg : env.MSGetToken u.refreshToken u.clientId u.clientSecret s.world = g
  by_cases h1 : g.1 = ""
  · refine ⟨[Call.MSGetToken u.refreshToken u.clientId u.clientSecret g.1,
      Call.print (u.msId ++ "Sign ERROR:AccessTokenGet\n")], ?_, ⟨g.1, ?_⟩, ?_⟩
    · simp [h1]
    · simp [Call.isExchange, Call.isProbe, Call.isStoreCall, h1]
    · simp only [h1, if_true]
      exact Pass.refreshFailure g.2 _ (by rw [hg, ← h1]) (by simp [effects, Call.isPrint])
  · generalize ho : env.OutLookGetMails g.1 g.2 = o
    by_cases h2 : o.1 = true
    · generalize ht : env.timeNowUnix o.2 = t
      generalize hr : env.UpdateData { u with uptime := t.1 } t.2 = r
      have hpass : ∀ seg, effects seg
          = [Call.MSGetToken u.refreshToken u.clientId u.clientSecret g.1,
              Call.OutLookGetMails g.1 true, Call.timeNowUnix t.1,
              Call.UpdateData (u.withUptime t.1) r.1.1 r.1.2] →
          Pass env u s.world seg r.2 := fun seg hseg =>
        Pass.renewed g.1 g.2 o.2 t.1 t.2 r.1.1 r.1.2 r.2 seg (by rw [hg]) h1
          (by rw [ho, ← h2]) (by rw [ht]) (by rw [MSData.withUptime, hr]) hseg
      by_cases h3 : r.1.1 = true
      · refine ⟨[Call.MSGetToken u.refreshToken u.clientId u.clientSecret g.1,
          Call.OutLookGetMails g.1 o.1, Call.print (u.msId ++ " Sign OK!\n"),
          Call.timeNowUnix t.1, Call.UpdateData { u with uptime := t.1 } r.1.1 r.1.2], ?_,
          ⟨g.1, ?_⟩, ?_⟩
        · simp [h1, h2, h3]
        · simp [Call.isExchange, Call.isProbe, Call.isStoreCall, h1, h2]
        · simp only [h1, h2, h3, if_false, Bool.not_true, Bool.false_eq_true]
          exact hpass _ (by simp [effects, Call.isPrint, MSData.withUptime, h3])
      · refine ⟨[Call.MSGetToken u.refreshToken u.clientId u.clientSecret g.1,
          Call.OutLookGetMails g.1 o.1, Call.print (u.msId ++ " Sign OK!\n"),
          Call.timeNowUnix t.1, Call.UpdateData { u with uptime := t.1 } r.1.1 r.1.2,
          Call.print (u.msId ++ " Update Data ERROR: " ++ fmtErr r.1.2 ++ "\n")], ?_,
          ⟨g.1, ?_⟩, ?_⟩
        · simp [h1, h2, h3]
        · simp [Call.isExchange, Call.isProbe, Call.isStoreCall, h1, h2]
        · have h3f : r.1.1 = false := by simpa using h3
          simp only [h1, h2, h3f, if_false, if_true, Bool.not_true, Bool.not_false,
            Bool.false_eq_true]
          exact hpass _ (by simp [effects, Call.isPrint, MSData.withUptime, h3f])
    · have h2f : o.1 = false := by simpa using h2
      refine ⟨[Call.MSGetToken u.refreshToken u.clientId u.clientSecret g.1,
        Call.OutLookGetMails g.1 o.1, Call.print (u.msId ++ "Sign ERROR:ReadMails\n")], ?_,
        ⟨g.1, ?_⟩, ?_⟩
      · simp [h1, h2]
      · simp [Call.isExchange, Call.isProbe, Call.isStoreCall, h1, h2]
      · simp only [h1, h2f, if_false, if_true, Bool.not_false]
        exact Pass.probeFailure g.1 g.2 o.2 _ (by rw [hg]) h1 (by rw [ho, ← h2f])
          (by simp [effects, Call.isPrint, h2f])

/-- The loop over the rows is one `Cycle`. -/
theorem SignTask.loop_cycle (env : Env W) (data : List MSData) (s : Sys W) :
    ∃ segs, (SignTask.loop env data s).calls = s.calls ++ segs.flatten ∧
      List.Forall₂ Renewal data segs ∧
      Cycle env data s.world segs (SignTask.loop env data s).world := by
  induction data generalizing s with
  | nil => exact ⟨[], by simp [SignTask.loop], List.Forall₂.nil, Cycle.nil _⟩
  | cons u rest ih =>
    obtain ⟨seg, hseg, hren, hpass⟩ := SignTask.body_pass env u s
    obtain ⟨segs, hsegs, hall, hcyc⟩ := ih (SignTask.body env u s)
    exact ⟨seg :: segs, by simp [SignTask.loop, hsegs, hseg], List.Forall₂.cons hren hall,
      Cycle.cons u rest _ _ _ seg segs hpass hcyc⟩

/-- A whole run of `SignTask`: the clock and the load of all rows, then one `Cycle`
over the loaded rows, begun in the world the load left. -/
theorem SignTask.cycle_shape (env : Env W) (s : Sys W) :
    ∃ tf w0 rows w1 segs,
      env.timeNowFormat "2006-01-02 15:04:05" s.world = (tf, w0) ∧
      env.QueryDataAll w0 = (rows, w1) ∧
      Cycle env rows w1 segs (SignTask env s).world ∧
      (SignTask env s).calls
        = s.calls ++ [Call.print "----Task Begin----\n", Call.timeNowFormat tf,
            Call.print ("Time:" ++ tf ++ "\n"), Call.QueryDataAll rows]
          ++ segs.flatten ++ [Call.print "----Task End----\n"] ∧
      List.Forall₂ Renewal rows segs := by
  unfold SignTask
  simp only [doTimeNowFormat, doQueryDataAll, Sys.print, Sys.emit]
  generalize hf : env.timeNowFormat "2006-01-02 15:04:05" s.world = f
  generalize hq : env.QueryDataAll f.2 = q
  obtain ⟨segs, hsegs, hall, hcyc⟩ := SignTask.loop_cycle env q.1
    { world := q.2, calls := s.calls ++ [Call.print "----Task Begin----\n"]
        ++ [Call.timeNowFormat f.1] ++ [Call.print ("Time:" ++ f.1 ++ "\n")]
        ++ [Call.QueryDataAll q.1] }
  refine ⟨f.1, f.2, q.1, q.2, segs, rfl, by rw [hq], hcyc, ?_, hall⟩
  rw [hsegs]
  simp

theorem filterMap_updateRec_filter (seg : List Call) :
    seg.filterMap Call.updateRec = (seg.filter Call.isStoreCall).filterMap Call.updateRec := by
  induction seg with
  | nil => rfl
  | cons c cs ih =>
    cases c <;> simp [List.filter, List.filterMap, Call.isStoreCall, Call.updateRec, ih]

/-- The refresh exchanges of consecutive passes are those of the rows, in order. -/
theorem exchanges_of_passes {rows : List MSData} {segs : List (List Call)}
    (h : List.Forall₂ Renewal rows segs) :
    List.Forall₂
      (fun c u => ∃ access, c = Call.MSGetToken u.refreshToken u.clientId u.clientSecret access)
      (segs.flatten.filter Call.isExchange) rows := by
  induction h with
  | nil => exact List.Forall₂.nil
  | @cons u seg rows segs hren _ ih =>
    obtain ⟨access, hex, _, _⟩ := hren
    simp only [List.flatten_cons, List.filter_append, hex, List.singleton_append]
    exact List.Forall₂.cons ⟨access, rfl⟩ ih

/-- The records updated by consecutive passes are the rows of the passes that
succeeded, in order, each with a new `uptime`. -/
theorem updates_of_passes {rows : List MSData} {segs : List (List Call)}
    (h : List.Forall₂ Renewal rows segs) :
    List.Forall₂ (fun r p => r = p.1.withUptime r.uptime)
      (segs.flatten.filterMap Call.updateRec)
      ((rows.zip segs).filter (fun p => passSucceeded p.2)) := by
  induction h with
  | nil => exact List.Forall₂.nil
  | @cons u seg rows segs hren _ ih =>
    obtain ⟨hyes, hno⟩ := hren.writes
    simp only [List.flatten_cons, List.filterMap_append, List.zip_cons_cons, List.filter_cons]
    rw [filterMap_updateRec_filter seg]
    cases hp : passSucceeded seg with
    | false =>
      simp only [hno hp, List.filterMap_nil, List.nil_append, Bool.false_eq_true, if_false]
      exact ih
    | true =>
      obtain ⟨t, res, err, _, hw⟩ := hyes hp
      simp only [hw, List.filterMap_cons, Call.updateRec, List.filterMap_nil,
        List.singleton_append]
      simp only [hp, if_true]
      exact List.Forall₂.cons rfl ih

/-- Claim C5: whatever rows `QueryDataAll` returns and whatever each collaborator
answers, `SignTask` runs one `Cycle` over the loaded rows and then writes its closing
line: for every row in list order, in the world the row before it left, it makes the
refresh exchange with the stored credentials; after a non-empty access credential it
makes the probe, and after a successful probe it reads the clock and calls
`UpdateData` on the row with the new `uptime`; a failed exchange, probe or update
does not stop the rows after it. Read off the calls: each pass has exactly one refresh
exchange, the records handed to `UpdateData` are, in order, exactly the rows of the
passes whose exchange and probe both succeeded, and a failed pass makes no store
call. -/
theorem SignTask_attempts_every_binding (env : Env W) (s : Sys W) :
    ∃ tf w0 rows w1 segs,
      env.timeNowFormat "2006-01-02 15:04:05" s.world = (tf, w0) ∧
      env.QueryDataAll w0 = (rows, w1) ∧
      Cycle env rows w1 segs (SignTask env s).world ∧
      (SignTask env s).calls
        = s.calls ++ [Call.print "----Task Begin----\n", Call.timeNowFormat tf,
            Call.print ("Time:" ++ tf ++ "\n"), Call.QueryDataAll rows]
          ++ segs.flatten ++ [Call.print "----Task End----\n"] ∧
      List.Forall₂ (fun u seg =>
        (∃ access, seg.filter Call.isExchange
          = [Call.MSGetToken u.refreshToken u.clientId u.clientSecret access]) ∧
        (passSucceeded seg = true → ∃ t res err,
          seg.filter Call.isStoreCall = [Call.UpdateData { u with uptime := t } res err]) ∧
        (passSucceeded seg = false → seg.filter Call.isStoreCall = [])) rows segs ∧
      List.Forall₂
        (fun c u => ∃ access,
          c = Call.MSGetToken u.refreshToken u.clientId u.clientSecret access)
        (segs.flatten.filter Call.isExchange) rows ∧
      List.Forall₂ (fun r p => r = p.1.withUptime r.uptime)
        (segs.flatten.filterMap Call.updateRec)
        ((rows.zip segs).filter (fun p => passSucceeded p.2)) := by
  obtain ⟨tf, w0, rows, w1, segs, hf, hq, hcyc, hcalls, hall⟩ := SignTask.cycle_shape env s
  refine ⟨tf, w0, rows, w1, segs, hf, hq, hcyc, hcalls, ?_, exchanges_of_passes hall,
    updates_of_passes hall⟩
  refine forall₂_imp_of (fun u seg hren => ?_) hall
  obtain ⟨hyes, hno⟩ := hren.writes
  obtain ⟨access, hex, _, _⟩ := hren
  refine ⟨⟨access, hex⟩, fun hp => ?_, hno⟩
  obtain ⟨t, res, err, _, hw⟩ := hyes hp
  exact ⟨t, res, err, hw⟩

/-- Claim C5 on the cycle over `rowX` then `rowY` in which the exchange of `rowX`
fails: the statement at this input, and what it forces there: `rowY` is still
exchanged, probed and updated. -/
theorem SignTask_attempts_every_binding_witness :
    (∃ tf w0 rows w1 segs,
      mixedEnv.timeNowFormat "2006-01-02 15:04:05" (Sys.start ()).world = (tf, w0) ∧
      mixedEnv.QueryDataAll w0 = (rows, w1) ∧
      Cycle mixedEnv rows w1 segs (SignTask mixedEnv (Sys.start ())).world ∧
      (SignTask mixedEnv (Sys.start ())).calls
        = (Sys.start ()).calls ++ [Call.print "----Task Begin----\n", Call.timeNowFormat tf,
            Call.print ("Time:" ++ tf ++ "\n"), Call.QueryDataAll rows]
          ++ segs.flatten ++ [Call.print "----Task End----\n"] ∧
      List.Forall₂ (fun u seg =>
        (∃ access, seg.filter Call.isExchange
          = [Call.MSGetToken u.refreshToken u.clientId u.clientSecret access]) ∧
        (passSucceeded seg = true → ∃ t res err,
          seg.filter Call.isStoreCall = [Call.UpdateData { u with uptime := t } res err]) ∧
        (passSucceeded seg = false → seg.filter Call.isStoreCall = [])) rows segs ∧
      List.Forall₂
        (fun c u => ∃ access,
          c = Call.MSGetToken u.refreshToken u.clientId u.clientSecret access)
        (segs.flatten.filter Call.isExchange) rows ∧
      List.Forall₂ (fun r p => r = p.1.withUptime r.uptime)
        (segs.flatten.filterMap Call.updateRec)
        ((rows.zip segs).filter (fun p => passSucceeded p.2))) ∧
    effects (SignTask mixedEnv (Sys.start ())).calls
      = [Call.timeNowFormat "2024-01-01 00:00:00", Call.QueryDataAll [rowX, rowY],
          Call.MSGetToken "r1" "X" "S" "",
          Call.MSGetToken "q1" "Y" "T" "a1", Call.OutLookGetMails "a1" true,
          Call.timeNowUnix 1000, Call.UpdateData (rowY.withUptime 1000) true none] :=
  ⟨SignTask_attempts_every_binding mixedEnv (Sys.start ()), by decide⟩

/-- Claim C4: a cycle is the load of all rows followed by one pass per row; the pass
of a binding whose refresh exchange gave an empty access credential, or whose
mail-listing probe failed, contains no call to the store at all: no `UpdateData` is
issued for that binding (nor any `AddData` or query), so nothing is written over its
stored `refreshToken` and `uptime`. -/
theorem SignTask_failed_pass_writes_nothing (env : Env W) (s : Sys W) :
    ∃ tf rows segs,
      (SignTask env s).calls
        = s.calls ++ [Call.print "----Task Begin----\n", Call.timeNowFormat tf,
            Call.print ("Time:" ++ tf ++ "\n"), Call.QueryDataAll rows]
          ++ segs.flatten ++ [Call.print "----Task End----\n"] ∧
      List.Forall₂ (fun u seg =>
        (∃ access, seg.filter Call.isExchange
          = [Call.MSGetToken u.refreshToken u.clientId u.clientSecret access]) ∧
        ((Call.MSGetToken u.refreshToken u.clientId u.clientSecret "" ∈ seg ∨
            ∃ access, Call.OutLookGetMails access false ∈ seg) →
          seg.filter Call.isStoreCall = [] ∧ seg.filterMap Call.updateRec = []))
        rows segs := by
  obtain ⟨tf, rows, segs, hcalls, hall⟩ := SignTask.calls_shape env s
  refine ⟨tf, rows, segs, hcalls, forall₂_imp_of (fun u seg hren => ?_) hall⟩
  obtain ⟨access, hex, hfail, hgo⟩ := hren
  refine ⟨⟨access, hex⟩, fun hbad => ?_⟩
  have hw : seg.filter Call.isStoreCall = [] := by
    by_cases ha : access = ""
    · exact (hfail ha).2
    · obtain ⟨ok, hp, hno, _⟩ := hgo ha
      rcases hbad with hmem | ⟨a, hmem⟩
      · have h1 : Call.MSGetToken u.refreshToken u.clientId u.clientSecret ""
            ∈ seg.filter Call.isExchange := List.mem_filter.2 ⟨hmem, rfl⟩
        rw [hex] at h1
        simp at h1
        exact absurd h1.symm ha
      · have h1 : Call.OutLookGetMails a false ∈ seg.filter Call.isProbe :=
          List.mem_filter.2 ⟨hmem, rfl⟩
        rw [hp] at h1
        simp at h1
        exact hno h1.2
  exact ⟨hw, by rw [filterMap_updateRec_filter, hw]; rfl⟩

/-- Claim C7: every record that a cycle hands to `UpdateData` agrees with one of the
rows loaded by `QueryDataAll` in that cycle on `tgId`, `msId`, `alias`, `clientId`,
`clientSecret` (and `other`). -/
theorem SignTask_update_keeps_identity (env : Env W) (w : W) (r : MSData) (ok : Bool)
    (err : Option String)
    (h : Call.UpdateData r ok err ∈ (SignTask env (Sys.start w)).calls) :
    ∃ rows u, Call.QueryDataAll rows ∈ (SignTask env (Sys.start w)).calls ∧ u ∈ rows ∧
      r.tgId = u.tgId ∧ r.msId = u.msId ∧ r.alias = u.alias ∧ r.clientId = u.clientId ∧
      r.clientSecret = u.clientSecret ∧ r.other = u.other := by
  obtain ⟨tf, rows, segs, hcalls, hall⟩ := SignTask.calls_shape env (Sys.start w)
  rw [hcalls] at h ⊢
  simp only [Sys.start, List.nil_append, List.mem_append, List.mem_cons, List.mem_singleton,
    List.mem_flatten, List.not_mem_nil, or_false, reduceCtorEq, false_or] at h
  obtain ⟨seg, hseg, hmem⟩ := h
  obtain ⟨u, hu, hren⟩ := forall₂_exists_left hall seg hseg
  refine ⟨rows, u, by simp, hu, ?_⟩
  obtain ⟨access, _, hfail, hgo⟩ := hren
  have h1 : Call.UpdateData r ok err ∈ seg.filter Call.isStoreCall :=
    List.mem_filter.2 ⟨hmem, rfl⟩
  by_cases ha : access = ""
  · rw [(hfail ha).2] at h1
    simp at h1
  · obtain ⟨okp, _, hno, hyes⟩ := hgo ha
    cases okp with
    | false =>
      rw [hno rfl] at h1
      simp at h1
    | true =>
      obtain ⟨t, res, e, _, hw⟩ := hyes rfl
      rw [hw] at h1
      simp only [List.mem_singleton, Call.UpdateData.injEq] at h1
      obtain ⟨hr, _, _⟩ := h1
      subst hr
      exact ⟨rfl, rfl, rfl, rfl, rfl, rfl⟩

theorem SignTask_update_keeps_identity_witness :
    Call.UpdateData { rowX with uptime := 1000 } true none
        ∈ (SignTask okEnv (Sys.start ())).calls ∧
    ∃ rows u, Call.QueryDataAll rows ∈ (SignTask okEnv (Sys.start ())).calls ∧ u ∈ rows ∧
      ({ rowX with uptime := 1000 } : MSData).tgId = u.tgId ∧
      ({ rowX with uptime := 1000 } : MSData).msId = u.msId ∧
      ({ rowX with uptime := 1000 } : MSData).alias = u.alias ∧
      ({ rowX with uptime := 1000 } : MSData).clientId = u.clientId ∧
      ({ rowX with uptime := 1000 } : MSData).clientSecret = u.clientSecret ∧
      ({ rowX with uptime := 1000 } : MSData).other = u.other :=
  ⟨by decide, SignTask_update_keeps_identity okEnv () { rowX with uptime := 1000 } true none
    (by decide)⟩

/-- Whatever the collaborators answer, a record handed to `UpdateData` is one of the
loaded rows with nothing but its `uptime` replaced: in particular its `refreshToken`
is the stored one. -/
theorem SignTask_update_is_loaded_row (env : Env W) (w : W) (r : MSData) (ok : Bool)
    (err : Option String)
    (h : Call.UpdateData r ok err ∈ (SignTask env (Sys.start w)).calls) :
    ∃ rows u, Call.QueryDataAll rows ∈ (SignTask env (Sys.start w)).calls ∧ u ∈ rows ∧
      r = u.withUptime r.uptime ∧ r.refreshToken = u.refreshToken := by
  obtain ⟨tf, rows, segs, hcalls, hall⟩ := SignTask.calls_shape env (Sys.start w)
  rw [hcalls] at h ⊢
  simp only [Sys.start, List.nil_append, List.mem_append, List.mem_cons, List.mem_singleton,
    List.mem_flatten, List.not_mem_nil, or_false, reduceCtorEq, false_or] at h
  obtain ⟨seg, hseg, hmem⟩ := h
  obtain ⟨u, hu, hren⟩ := forall₂_exists_left hall seg hseg
  refine ⟨rows, u, by simp, hu, ?_⟩
  obtain ⟨access, _, hfail, hgo⟩ := hren
  have h1 : Call.UpdateData r ok err ∈ seg.filter Call.isStoreCall :=
    List.mem_filter.2 ⟨hmem, rfl⟩
  by_cases ha : access = ""
  · rw [(hfail ha).2] at h1
    simp at h1
  · obtain ⟨okp, _, hno, hyes⟩ := hgo ha
    cases okp with
    | false =>
      rw [hno rfl] at h1
      simp at h1
    | true =>
      obtain ⟨t, res, e, _, hw⟩ := hyes rfl
      rw [hw] at h1
      simp only [List.mem_singleton, Call.UpdateData.injEq] at h1
      obtain ⟨hr, _, _⟩ := h1
      subst hr
      exact ⟨rfl, rfl⟩

/-- Claim C1, at the failing input: the store holds `rowX` with refresh credential
`"r1"`, the provider accepts `"r1"`, answers the exchange with an access credential
and issues the new refresh credential `"r1+"`; the probe succeeds. The one record the
cycle hands to `UpdateData` carries the updated timestamp and the stored credential
`"r1"`, not the credential `"r1+"` the provider now expects. -/
theorem SignTask_update_carries_stored_refreshToken :
    (SignTask rotatingEnv (Sys.start "r1")).calls.filterMap Call.updateRec
      = [{ rowX with uptime := 1000 }] ∧
    ({ rowX with uptime := 1000 } : MSData).refreshToken = "r1" ∧
    (SignTask rotatingEnv (Sys.start "r1")).world = "r1+" := by
  refine ⟨by decide, rfl, by decide⟩

/-- End-to-end scenario C of the specification: over `rowX` then `rowY`, where the
exchange of `rowX` fails and `rowY` succeeds, the cycle runs to its closing line and
updates `rowY` alone. -/
theorem SignTask_scenario_C :
    (SignTask mixedEnv (Sys.start ())).calls.filterMap Call.updateRec
      = [{ rowY with uptime := 1000 }] ∧
    (SignTask mixedEnv (Sys.start ())).calls.getLast? = some (Call.print "----Task End----\n") ∧
    (SignTask mixedEnv (Sys.start ())).calls.filter Call.isExchange
      = [Call.MSGetToken "r1" "X" "S" "", Call.MSGetToken "q1" "Y" "T" "a1"] := by
  refine ⟨by decide, by decide, by decide⟩

/-- Every way `BindUser` can run: its result and the calls it makes, branch by
branch, in source order. -/
theorem BindUser.outcome (env : Env W) (m : Message) (cid cse : String) (s : Sys W) :
    ((Split m.text).length ≠ 2 ∧ (BindUser env m cid cse s).1 = errFormat ∧
      (BindUser env m cid cse s).2.world = s.world ∧
      ∃ l1 l2, (BindUser env m cid cse s).2.calls = s.calls ++ [Call.print l1, Call.print l2]) ∨
    ∃ first second access refresh l1 l2, Split m.text = [first, second] ∧
      ((refresh = "" ∧ (BindUser env m cid cse s).1 = errToken ∧
        ∃ l3, (BindUser env m cid cse s).2.calls = s.calls ++
          [Call.print l1, Call.print l2,
            Call.MSFirGetToken (env.GetURLValue first "code") cid cse access refresh,
            Call.print l3]) ∨
      (refresh ≠ "" ∧ ∃ info,
        ((info = "" ∧ (BindUser env m cid cse s).1 = errInfo ∧
          ∃ l3, (BindUser env m cid cse s).2.calls = s.calls ++
            [Call.print l1, Call.print l2,
              Call.MSFirGetToken (env.GetURLValue first "code") cid cse access refresh,
              Call.botSend m.chatId "Token获取成功!", Call.MSGetUserInfo access info,
              Call.print l3]) ∨
        (info ≠ "" ∧ ∃ t rows l3,
          ((MSAppIsExist.scan cid rows = true ∧ (BindUser env m cid cse s).1 = errDuplicate ∧
            ∃ l4, (BindUser env m cid cse s).2.calls = s.calls ++
              [Call.print l1, Call.print l2,
                Call.MSFirGetToken (env.GetURLValue first "code") cid cse access refresh,
                Call.botSend m.chatId "Token获取成功!", Call.MSGetUserInfo access info,
                Call.timeNowUnix t, Call.print l3, Call.QueryDataByTG m.chatId rows,
                Call.print l4]) ∨
          (MSAppIsExist.scan cid rows = false ∧ ∃ b ok err l4,
            (BindUser env m cid cse s).2.calls = s.calls ++
              [Call.print l1, Call.print l2,
                Call.MSFirGetToken (env.GetURLValue first "code") cid cse access refresh,
                Call.botSend m.chatId "Token获取成功!", Call.MSGetUserInfo access info,
                Call.timeNowUnix t, Call.print l3, Call.QueryDataByTG m.chatId rows,
                Call.botSend m.chatId b,
                Call.AddData
                  { tgId := m.chatId, refreshToken := refresh,
                    msId := env.Get16MD5Encode (env.gjsonGet info "id"), uptime := t,
                    «alias» := second, clientId := cid, clientSecret := cse, other := "" }
                  ok err,
                Call.print l4] ∧
            ((ok = false ∧ (BindUser env m cid cse s).1 = errPersist) ∨
              (ok = true ∧ (BindUser env m cid cse s).1 = "")))))))) := by
  unfold BindUser
  simp only [doMSFirGetToken, doBotSend, doMSGetUserInfo, doTimeNowUnix, MSAppIsExist,
    doQueryDataByTG, doAddData, Sys.print, Sys.emit]
  by_cases h0 : (Split m.text).length = 2
  · obtain ⟨first, second, hsplit⟩ := List.length_eq_two.1 h0
    right
    simp only [hsplit, List.length_cons, List.length_nil, List.getD_cons_zero,
      List.getD_cons_succ]
    generalize env.MSFirGetToken (env.GetURLValue first "code") cid cse s.world = x
    refine ⟨first, second, x.1.1, x.1.2, toString m.chatId ++ " Begin Bind\n",
      "alias: " ++ second ++ "\n", rfl, ?_⟩
    by_cases h1 : x.1.2 = ""
    · left
      exact ⟨h1, by simp [h1], toString m.chatId ++ " Bind error:GetRefreshToken\n",
        by simp [h1]⟩
    · right
      refine ⟨h1, ?_⟩
      generalize env.MSGetUserInfo x.1.1 (env.botSend m.chatId "Token获取成功!" x.2) = i
      refine ⟨i.1, ?_⟩
      by_cases h2 : i.1 = ""
      · left
        exact ⟨h2, by simp [h1, h2], toString m.chatId ++ " Bind error:Getinfo\n",
          by simp [h1, h2]⟩
      · right
        refine ⟨h2, ?_⟩
        generalize env.timeNowUnix i.2 = t
        generalize env.QueryDataByTG m.chatId t.2 = q
        refine ⟨t.1, q.1, toString t.1 ++ "\n", ?_⟩
        by_cases h3 : MSAppIsExist.scan cid q.1 = true
        · left
          exact ⟨h3, by simp [h1, h2, h3], toString m.chatId ++ " Bind error:MSUserHasExisted\n",
            by simp [h1, h2, h3]⟩
        · right
          have h3f : MSAppIsExist.scan cid q.1 = false := by simpa using h3
          refine ⟨h3f, ?_⟩
          generalize hb : ("MS_ID(MD5)： " ++ env.Get16MD5Encode (env.gjsonGet i.1 "id")
            ++ "\nuserPrincipalName： " ++ env.gjsonGet i.1 "userPrincipalName"
            ++ "\ndisplayName： " ++ env.gjsonGet i.1 "displayName" ++ "\n") = b
          generalize env.AddData
            { tgId := m.chatId, refreshToken := x.1.2,
              msId := env.Get16MD5Encode (env.gjsonGet i.1 "id"), uptime := t.1,
              «alias» := second, clientId := cid, clientSecret := cse, other := "" }
            (env.botSend m.chatId b q.2) = a
          by_cases h4 : a.1.1 = true
          · refine ⟨b, a.1.1, a.1.2, toString m.chatId ++ " Bind Successfully!\n",
              by simp [h1, h2, h3f, h4], Or.inr ⟨h4, ?_⟩⟩
            simp [h1, h2, h3f, h4]
          · have h4f : a.1.1 = false := by simpa using h4
            refine ⟨b, a.1.1, a.1.2,
              toString m.chatId ++ " Bind error: " ++ fmtErr a.1.2 ++ "\n",
              by simp [h1, h2, h3f, h4f], Or.inl ⟨h4f, ?_⟩⟩
            simp [h1, h2, h3f, h4f]
  · left
    exact ⟨h0, by simp [h0], by simp [h0], toString m.chatId ++ " Begin Bind\n",
      toString m.chatId ++ " Bind error:Wrong Bind Format\n", by simp [h0]⟩

theorem Split.go_length (cs acc : List Char) :
    (Split.go cs acc).length = cs.count ' ' + 1 := by
  induction cs generalizing acc with
  | nil => simp [Split.go]
  | cons c cs ih =>
    by_cases hc : c = ' '
    · simp [Split.go, hc, ih]
    · have hne : ¬ (c == ' ') = true := by simpa using hc
      simp [Split.go, hc, ih, List.count_cons, hne]

/-- The text is cut into one more piece than it has space characters. -/
theorem Split_length (s : String) : (Split s).length = s.data.count ' ' + 1 :=
  Split.go_length s.data []

theorem Split.go_no_space (cs acc : List Char) (h : ' ' ∉ cs) :
    Split.go cs acc = [String.mk (acc.reverse ++ cs)] := by
  induction cs generalizing acc with
  | nil => simp [Split.go]
  | cons c cs ih =>
    have hc : c ≠ ' ' := fun hc => h (by simp [hc])
    have hcs : ' ' ∉ cs := fun hm => h (List.mem_cons_of_mem _ hm)
    simp [Split.go, hc, ih (c :: acc) hcs]

theorem Split.go_at_space (a b acc : List Char) (h : ' ' ∉ a) :
    Split.go (a ++ ' ' :: b) acc = String.mk (acc.reverse ++ a) :: Split.go b [] := by
  induction a generalizing acc with
  | nil => simp [Split.go]
  | cons c cs ih =>
    have hc : c ≠ ' ' := fun hc => h (by simp [hc])
    have hcs : ' ' ∉ cs := fun hm => h (List.mem_cons_of_mem _ hm)
    simp [Split.go, hc, ih (c :: acc) hcs]

theorem exists_pieces_of_count (cs : List Char) (h : cs.count ' ' = 1) :
    ∃ a b, cs = a ++ ' ' :: b ∧ ' ' ∉ a ∧ ' ' ∉ b := by
  induction cs with
  | nil => simp at h
  | cons c cs ih =>
    by_cases hc : c = ' '
    · subst hc
      simp only [List.count_cons_self, Nat.add_left_eq_self] at h
      exact ⟨[], cs, rfl, by simp, List.count_eq_zero.1 h⟩
    · have hne : ¬ (c == ' ') = true := by simpa using hc
      simp only [List.count_cons, hne, if_false, Nat.add_zero] at h
      obtain ⟨a, b, hab, ha, hb⟩ := ih h
      refine ⟨c :: a, b, by simp [hab], ?_, hb⟩
      intro hm
      rcases List.mem_cons.1 hm with h1 | h1
      · exact hc h1.symm
      · exact ha h1

/-- Two tokens with one space between them are cut into exactly these two pieces. -/
theorem Split_of_twoPieces {text first second : String} (h : twoPieces text first second) :
    Split text = [first, second] := by
  obtain ⟨hd, h1, h2⟩ := h
  simp [Split, hd, Split.go_at_space _ _ _ h1, Split.go_no_space _ _ h2]

/-- A text cut into two pieces is two tokens with one space between them. -/
theorem twoPieces_of_Split_length {text : String} (h : (Split text).length = 2) :
    ∃ first second, twoPieces text first second := by
  have hc : text.data.count ' ' = 1 := by
    have := Split_length text
    omega
  obtain ⟨a, b, hab, ha, hb⟩ := exists_pieces_of_count text.data hc
  exact ⟨String.mk a, String.mk b, hab, ha, hb⟩

/-- What `MSAppIsExist` looks for: a row whose `msId` equals the given client id. -/
theorem MSAppIsExist.scan_iff (clientId : String) (rows : List MSData) :
    MSAppIsExist.scan clientId rows = true ↔ ∃ r ∈ rows, r.msId = clientId := by
  induction rows with
  | nil => simp [MSAppIsExist.scan]
  | cons r rest ih =>
    by_cases h : r.msId = clientId
    · simp [MSAppIsExist.scan, h]
    · simp [MSAppIsExist.scan, h, ih]

theorem errTexts_distinct :
    errFormat ≠ "" ∧ errToken ≠ "" ∧ errInfo ≠ "" ∧ errDuplicate ≠ "" ∧ errPersist ≠ "" ∧
    errFormat ≠ errToken ∧ errFormat ≠ errInfo ∧ errFormat ≠ errDuplicate ∧
    errFormat ≠ errPersist ∧ errToken ≠ errInfo ∧ errToken ≠ errDuplicate ∧
    errToken ≠ errPersist ∧ errInfo ≠ errDuplicate ∧ errInfo ≠ errPersist ∧
    errDuplicate ≠ errPersist := by
  decide

/-- Claim C3, as amended: a text that `strings.Split(text, " ")` does not cut into
exactly two pieces makes `BindUser` return the format error after two log lines and
nothing else: no code exchange, no profile fetch, no store access, no bot message, and
the outside world is as it was. -/
theorem BindUser_malformed_input (env : Env W) (m : Message) (cid cse : String) (s : Sys W)
    (h : (Split m.text).length ≠ 2) :
    (BindUser env m cid cse s).1 = errFormat ∧
    (BindUser env m cid cse s).2.world = s.world ∧
    ∃ l1 l2, (BindUser env m cid cse s).2.calls = s.calls ++ [Call.print l1, Call.print l2] := by
  rcases BindUser.outcome env m cid cse s with ⟨_, hres, hw, hcalls⟩ | ⟨a, b, _, _, _, _, hsplit, _⟩
  · exact ⟨hres, hw, hcalls⟩
  · exact absurd (by rw [hsplit]; rfl) h

theorem BindUser_malformed_input_witness :
    (Split (Message.mk 7 "alice").text).length ≠ 2 ∧
    (BindUser okEnv (Message.mk 7 "alice") "X" "S" (Sys.start ())).1 = errFormat ∧
    (BindUser okEnv (Message.mk 7 "alice") "X" "S" (Sys.start ())).2.world = (Sys.start ()).world ∧
    ∃ l1 l2, (BindUser okEnv (Message.mk 7 "alice") "X" "S" (Sys.start ())).2.calls
      = (Sys.start ()).calls ++ [Call.print l1, Call.print l2] :=
  ⟨by decide, BindUser_malformed_input okEnv (Message.mk 7 "alice") "X" "S" (Sys.start ())
    (by decide)⟩

/-- Claim C3, as stated, fails: the text `"https://x/cb?code=abc123 "` (a URL followed
by one space) is a single whitespace-separated token, yet `BindUser` does not return
the format error: it makes the code exchange and goes on to store a binding whose
alias is empty. -/
theorem BindUser_single_token_counterexample :
    (whitespaceTokens "https://x/cb?code=abc123 ").length ≠ 2 ∧
    (BindUser okEnv (Message.mk 7 "https://x/cb?code=abc123 ") "X" "S" (Sys.start ())).1
      ≠ errFormat ∧
    Call.MSFirGetToken "abc123" "X" "S" "a0" "r0"
      ∈ (BindUser okEnv (Message.mk 7 "https://x/cb?code=abc123 ") "X" "S" (Sys.start ())).2.calls ∧
    ((BindUser okEnv (Message.mk 7 "https://x/cb?code=abc123 ") "X" "S"
      (Sys.start ())).2.calls.filterMap Call.addRec).map (fun u => u.alias) = [""] := by
  refine ⟨by decide, by decide, by decide, by decide⟩

/-- Claim C2, at the failing input: the store holds, for principal `1`, the binding
`rowX` whose `clientId` is `"X"` (its `msId` is a digest, `"0123456789abcdef"`). A bind
by principal `1` with `cid = "X"` whose exchange and profile fetch succeed does not
return the duplicate-binding error: it returns success and hands a second record with
`clientId = "X"` to `AddData`. -/
theorem BindUser_same_client_id_bound_again :
    rowX.tgId = 1 ∧ rowX.clientId = "X" ∧
    Call.QueryDataByTG 1 [rowX]
      ∈ (BindUser okEnv (Message.mk 1 "https://x/cb?code=abc123 alice") "X" "S"
          (Sys.start ())).2.calls ∧
    (BindUser okEnv (Message.mk 1 "https://x/cb?code=abc123 alice") "X" "S" (Sys.start ())).1
      = "" ∧
    (BindUser okEnv (Message.mk 1 "https://x/cb?code=abc123 alice") "X" "S"
      (Sys.start ())).2.calls.filterMap Call.addRec
      = [{ tgId := 1, refreshToken := "r0", msId := "md5(u1)", uptime := 1000,
           «alias» := "alice", clientId := "X", clientSecret := "S", other := "" }] := by
  refine ⟨rfl, rfl, by decide, by decide, by decide⟩

/-- Claim C6: when `BindUser` returns success, the text split into two pieces
`first` and `second`; among the calls it made there is exactly one code exchange (for
the code of `first`, with `cid` and `cse`), exactly one profile fetch (with the access
credential of that exchange) and exactly one `AddData`, whose record has the
non-empty refresh credential of that exchange, `alias = second`, `msId` the
`Get16MD5Encode` of the `"id"` field of the fetched profile, `tgId` the chat id,
`clientId = cid`, `clientSecret = cse`, `other = ""` and the clock reading as `uptime`. -/
theorem BindUser_success_record (env : Env W) (m : Message) (cid cse : String) (s : Sys W)
    (h : (BindUser env m cid cse s).1 = "") :
    ∃ new first second access refresh info t,
      (BindUser env m cid cse s).2.calls = s.calls ++ new ∧
      Split m.text = [first, second] ∧
      new.filter Call.isCodeExchange
        = [Call.MSFirGetToken (env.GetURLValue first "code") cid cse access refresh] ∧
      new.filter Call.isProfileFetch = [Call.MSGetUserInfo access info] ∧
      refresh ≠ "" ∧
      Call.timeNowUnix t ∈ new ∧
      new.filterMap Call.addRec
        = [{ tgId := m.chatId, refreshToken := refresh,
             msId := env.Get16MD5Encode (env.gjsonGet info "id"), uptime := t,
             «alias» := second, clientId := cid, clientSecret := cse, other := "" }] := by
  obtain ⟨e1, e2, e3, e4, e5, _⟩ := errTexts_distinct
  rcases BindUser.outcome env m cid cse s with
    ⟨_, hres, _⟩ | ⟨first, second, access, refresh, l1, l2, hsplit, hrest⟩
  · exact absurd (hres.symm.trans h) e1
  rcases hrest with ⟨_, hres, _⟩ | ⟨hrefresh, info, hrest⟩
  · exact absurd (hres.symm.trans h) e2
  rcases hrest with ⟨_, hres, _⟩ | ⟨_, t, rows, l3, hrest⟩
  · exact absurd (hres.symm.trans h) e3
  rcases hrest with ⟨_, hres, _⟩ | ⟨_, b, ok, err, l4, hcalls, hrest⟩
  · exact absurd (hres.symm.trans h) e4
  rcases hrest with ⟨_, hres⟩ | ⟨_, _⟩
  · exact absurd (hres.symm.trans h) e5
  exact ⟨_, first, second, access, refresh, info, t, hcalls, hsplit,
    by simp [Call.isCodeExchange], by simp [Call.isProfileFetch], hrefresh, by simp,
    by simp [Call.addRec]⟩

theorem BindUser_success_record_witness :
    (BindUser okEnv (Message.mk 7 "https://x/cb?code=abc123 alice") "X" "S" (Sys.start ())).1
      = "" ∧
    ∃ new first second access refresh info t,
      (BindUser okEnv (Message.mk 7 "https://x/cb?code=abc123 alice") "X" "S"
        (Sys.start ())).2.calls = (Sys.start ()).calls ++ new ∧
      Split (Message.mk 7 "https://x/cb?code=abc123 alice").text = [first, second] ∧
      new.filter Call.isCodeExchange
        = [Call.MSFirGetToken (okEnv.GetURLValue first "code") "X" "S" access refresh] ∧
      new.filter Call.isProfileFetch = [Call.MSGetUserInfo access info] ∧
      refresh ≠ "" ∧
      Call.timeNowUnix t ∈ new ∧
      new.filterMap Call.addRec
        = [{ tgId := (Message.mk 7 "https://x/cb?code=abc123 alice").chatId,
             refreshToken := refresh,
             msId := okEnv.Get16MD5Encode (okEnv.gjsonGet info "id"), uptime := t,
             «alias» := second, clientId := "X", clientSecret := "S", other := "" }] :=
  ⟨by decide, BindUser_success_record okEnv (Message.mk 7 "https://x/cb?code=abc123 alice")
    "X" "S" (Sys.start ()) (by decide)⟩

/-- The result of `BindUser` from the answers of the collaborators, check by check:
each check is made in the world the checks before it left. -/
theorem BindUser.checks (env : Env W) (m : Message) (cid cse : String) (s : Sys W) :
    ((¬ ∃ first second, twoPieces m.text first second) →
      (BindUser env m cid cse s).1 = errFormat) ∧
    (∀ first second access refresh w1, twoPieces m.text first second →
      env.MSFirGetToken (env.GetURLValue first "code") cid cse s.world
        = ((access, refresh), w1) →
      (refresh = "" → (BindUser env m cid cse s).1 = errToken) ∧
      ∀ info w2, refresh ≠ "" →
        env.MSGetUserInfo access (env.botSend m.chatId "Token获取成功!" w1) = (info, w2) →
        (info = "" → (BindUser env m cid cse s).1 = errInfo) ∧
        ∀ t w3 rows w4, info ≠ "" → env.timeNowUnix w2 = (t, w3) →
          env.QueryDataByTG m.chatId w3 = (rows, w4) →
          ((∃ r ∈ rows, r.msId = cid) → (BindUser env m cid cse s).1 = errDuplicate) ∧
          ∀ ok err w5, (∀ r ∈ rows, r.msId ≠ cid) →
            env.AddData (bindRecord env m cid cse refresh info t second)
              (env.botSend m.chatId (bindBanner env info) w4) = ((ok, err), w5) →
            (ok = false → (BindUser env m cid cse s).1 = errPersist) ∧
            (ok = true → (BindUser env m cid cse s).1 = "")) := by
  constructor
  · intro hno
    have h0 : (Split m.text).length ≠ 2 := fun h => hno (twoPieces_of_Split_length h)
    simp [BindUser, h0]
  · intro first second access refresh w1 htp hx
    have hs := Split_of_twoPieces htp
    refine ⟨fun h => ?_, ?_⟩
    · simp [BindUser, doMSFirGetToken, Sys.print, Sys.emit, hs, hx, h]
    intro info w2 hne hi
    refine ⟨fun h => ?_, ?_⟩
    · simp [BindUser, doMSFirGetToken, doBotSend, doMSGetUserInfo, Sys.print, Sys.emit, hs, hx,
        hne, hi, h]
    intro t w3 rows w4 hinfo ht hq
    refine ⟨fun h => ?_, ?_⟩
    · have hscan := (MSAppIsExist.scan_iff cid rows).2 h
      simp [BindUser, doMSFirGetToken, doBotSend, doMSGetUserInfo, doTimeNowUnix, MSAppIsExist,
        doQueryDataByTG, Sys.print, Sys.emit, hs, hx, hne, hi, hinfo, ht, hq, hscan]
    intro ok err w5 hfree ha
    have hscan : MSAppIsExist.scan cid rows = false := by
      cases hb : MSAppIsExist.scan cid rows with
      | false => rfl
      | true =>
        obtain ⟨r, hr, hrm⟩ := (MSAppIsExist.scan_iff cid rows).1 hb
        exact absurd hrm (hfree r hr)
    simp only [bindRecord, bindBanner] at ha
    refine ⟨fun h => ?_, fun h => ?_⟩
    · subst h
      simp [BindUser, doMSFirGetToken, doBotSend, doMSGetUserInfo, doTimeNowUnix, MSAppIsExist,
        doQueryDataByTG, doAddData, Sys.print, Sys.emit, hs, hx, hne, hi, hinfo, ht, hq, hscan,
        ha]
    · subst h
      simp [BindUser, doMSFirGetToken, doBotSend, doMSGetUserInfo, doTimeNowUnix, MSAppIsExist,
        doQueryDataByTG, doAddData, Sys.print, Sys.emit, hs, hx, hne, hi, hinfo, ht, hq, hscan,
        ha]

/-- Claim C8: `BindUser` makes its five checks in the order format, token, profile,
duplicate, persistence, each on the answer the collaborator gives in the world the
earlier checks left, and returns the text of the first check that fails: the format
text when the input is not two space-free tokens with one space between them; else
the token text when the code exchange (for the code of the first token) answers an
empty refresh credential; else the profile text when the profile fetch (with the
access credential of the exchange) answers an empty payload; else the duplicate text
when the duplicate check of `MSAppIsExist` finds a row; else the persistence text
when `AddData` does not answer ok. It returns `""` if and only if all five checks
pass. The five texts are non-empty and pairwise distinct. -/
theorem BindUser_result (env : Env W) (m : Message) (cid cse : String) (s : Sys W) :
    ((¬ ∃ first second, twoPieces m.text first second) →
      (BindUser env m cid cse s).1 = errFormat) ∧
    (∀ first second access refresh w1, twoPieces m.text first second →
      env.MSFirGetToken (env.GetURLValue first "code") cid cse s.world
        = ((access, refresh), w1) →
      (refresh = "" → (BindUser env m cid cse s).1 = errToken) ∧
      ∀ info w2, refresh ≠ "" →
        env.MSGetUserInfo access (env.botSend m.chatId "Token获取成功!" w1) = (info, w2) →
        (info = "" → (BindUser env m cid cse s).1 = errInfo) ∧
        ∀ t w3 rows w4, info ≠ "" → env.timeNowUnix w2 = (t, w3) →
          env.QueryDataByTG m.chatId w3 = (rows, w4) →
          ((∃ r ∈ rows, r.msId = cid) → (BindUser env m cid cse s).1 = errDuplicate) ∧
          ∀ ok err w5, (∀ r ∈ rows, r.msId ≠ cid) →
            env.AddData (bindRecord env m cid cse refresh info t second)
              (env.botSend m.chatId (bindBanner env info) w4) = ((ok, err), w5) →
            (ok = false → (BindUser env m cid cse s).1 = errPersist) ∧
            (ok = true → (BindUser env m cid cse s).1 = "")) ∧
    ((BindUser env m cid cse s).1 = "" ↔
      ∃ first second access refresh w1 info w2 t w3 rows w4 err w5,
        twoPieces m.text first second ∧
        env.MSFirGetToken (env.GetURLValue first "code") cid cse s.world
          = ((access, refresh), w1) ∧
        refresh ≠ "" ∧
        env.MSGetUserInfo access (env.botSend m.chatId "Token获取成功!" w1) = (info, w2) ∧
        info ≠ "" ∧
        env.timeNowUnix w2 = (t, w3) ∧
        env.QueryDataByTG m.chatId w3 = (rows, w4) ∧
        (∀ r ∈ rows, r.msId ≠ cid) ∧
        env.AddData (bindRecord env m cid cse refresh info t second)
          (env.botSend m.chatId (bindBanner env info) w4) = ((true, err), w5)) ∧
    (errFormat ≠ "" ∧ errToken ≠ "" ∧ errInfo ≠ "" ∧ errDuplicate ≠ "" ∧ errPersist ≠ "" ∧
      errFormat ≠ errToken ∧ errFormat ≠ errInfo ∧ errFormat ≠ errDuplicate ∧
      errFormat ≠ errPersist ∧ errToken ≠ errInfo ∧ errToken ≠ errDuplicate ∧
      errToken ≠ errPersist ∧ errInfo ≠ errDuplicate ∧ errInfo ≠ errPersist ∧
      errDuplicate ≠ errPersist) := by
  obtain ⟨hfmt, hcore⟩ := BindUser.checks env m cid cse s
  obtain ⟨e1, e2, e3, e4, e5, _⟩ := errTexts_distinct
  refine ⟨hfmt, hcore, ⟨fun h => ?_, ?_⟩, errTexts_distinct⟩
  · by_cases hf : ∃ first second, twoPieces m.text first second
    · obtain ⟨first, second, htp⟩ := hf
      rcases hx : env.MSFirGetToken (env.GetURLValue first "code") cid cse s.world with
        ⟨⟨access, refresh⟩, w1⟩
      obtain ⟨c1, c2⟩ := hcore first second access refresh w1 htp hx
      by_cases hr : refresh = ""
      · exact absurd ((c1 hr).symm.trans h) e2
      rcases hi : env.MSGetUserInfo access (env.botSend m.chatId "Token获取成功!" w1) with
        ⟨info, w2⟩
      obtain ⟨c3, c4⟩ := c2 info w2 hr hi
      by_cases hinfo : info = ""
      · exact absurd ((c3 hinfo).symm.trans h) e3
      rcases ht : env.timeNowUnix w2 with ⟨t, w3⟩
      rcases hq : env.QueryDataByTG m.chatId w3 with ⟨rows, w4⟩
      obtain ⟨c5, c6⟩ := c4 t w3 rows w4 hinfo ht hq
      by_cases hd : ∃ r ∈ rows, r.msId = cid
      · exact absurd ((c5 hd).symm.trans h) e4
      have hfree : ∀ r ∈ rows, r.msId ≠ cid := fun r hr hm => hd ⟨r, hr, hm⟩
      rcases ha : env.AddData (bindRecord env m cid cse refresh info t second)
        (env.botSend m.chatId (bindBanner env info) w4) with ⟨⟨ok, err⟩, w5⟩
      obtain ⟨c7, _⟩ := c6 ok err w5 hfree ha
      cases ok with
      | false => exact absurd ((c7 rfl).symm.trans h) e5
      | true =>
        exact ⟨first, second, access, refresh, w1, info, w2, t, w3, rows, w4, err, w5, htp, hx,
          hr, hi, hinfo, ht, hq, hfree, ha⟩
    · exact absurd ((hfmt hf).symm.trans h) e1
  · rintro ⟨first, second, access, refresh, w1, info, w2, t, w3, rows, w4, err, w5, htp, hx, hr,
      hi, hinfo, ht, hq, hfree, ha⟩
    exact (((((hcore first second access refresh w1 htp hx).2 info w2 hr hi).2 t w3 rows w4
      hinfo ht hq).2 true err w5 hfree ha).2 rfl)

/-- Claim C8 on explicit inputs: with collaborators that all succeed the five checks
pass and the result is `""`; with the one-word text `"alice"` the result is the
format text. -/
theorem BindUser_result_witness :
    twoPieces (Message.mk 7 "https://x/cb?code=abc123 alice").text "https://x/cb?code=abc123"
      "alice" ∧
    (BindUser okEnv (Message.mk 7 "https://x/cb?code=abc123 alice") "X" "S" (Sys.start ())).1
      = "" ∧
    (¬ ∃ first second, twoPieces (Message.mk 7 "alice").text first second) ∧
    (BindUser okEnv (Message.mk 7 "alice") "X" "S" (Sys.start ())).1 = errFormat :=
  have htp : twoPieces (Message.mk 7 "https://x/cb?code=abc123 alice").text
      "https://x/cb?code=abc123" "alice" := ⟨by decide, by decide, by decide⟩
  have hno : ¬ ∃ first second, twoPieces (Message.mk 7 "alice").text first second :=
    fun ⟨first, second, hd, _, _⟩ => by
      have hmem : ' ' ∈ (Message.mk 7 "alice").text.data := by
        rw [hd]
        simp
      exact absurd hmem (by decide)
  ⟨htp,
    (((((BindUser_result okEnv (Message.mk 7 "https://x/cb?code=abc123 alice") "X" "S"
      (Sys.start ())).2.1 "https://x/cb?code=abc123" "alice" "a0" "r0" () htp rfl).2
      "profile" () (by decide) rfl).2 1000 () [] () (by decide) rfl rfl).2 true none ()
      (by simp) rfl).2 rfl,
    hno,
    (BindUser_result okEnv (Message.mk 7 "alice") "X" "S" (Sys.start ())).1 hno⟩

/-- Claim C9: when the response body of the code exchange was read, with text
`content`: if its `"token_type"` is not `"Bearer"`, `GetTokenWithCode` returns an error
whose message is `content` itself and leaves the client as it was, so a client made
by `NewClient` still holds an empty refresh credential; if it is `"Bearer"`, the call
returns `nil` and the client's `RefreshToken` is the `"refresh_token"` of `content`,
its other fields unchanged. -/
theorem GetTokenWithCode_bearer_marker {W R : Type} (h : Http W R) (c : Client)
    (code : String) (w : W) (content : String)
    (hread : bodyRead h (codeForm h c code) w content) :
    (h.gjsonGet content "token_type" ≠ "Bearer" →
      (c.GetTokenWithCode h code w).1.2 = some content ∧
      (c.GetTokenWithCode h code w).1.1 = c ∧
      (c.RefreshToken = "" → (c.GetTokenWithCode h code w).1.1.RefreshToken = "") ∧
      ∀ cid cse, c = NewClient cid cse →
        (c.GetTokenWithCode h code w).1.1.RefreshToken = "") ∧
    (h.gjsonGet content "token_type" = "Bearer" →
      (c.GetTokenWithCode h code w).1.2 = none ∧
      (c.GetTokenWithCode h code w).1.1
        = { c with RefreshToken := h.gjsonGet content "refresh_token" } ∧
      (c.GetTokenWithCode h code w).1.1.RefreshToken = h.gjsonGet content "refresh_token") := by
  obtain ⟨req, resp, w1, w2, hreq, hdo, hrd⟩ := hread
  simp only [codeForm] at hreq
  constructor
  · intro hne
    have hrun : c.GetTokenWithCode h code w = ((c, some content), h.Close resp w2) := by
      simp only [Client.GetTokenWithCode, hreq, hdo, hrd, hne, if_false]
    rw [hrun]
    refine ⟨rfl, rfl, fun hc => hc, fun cid cse hc => ?_⟩
    rw [hc]
    rfl
  · intro hb
    have hrun : c.GetTokenWithCode h code w
        = (({ c with RefreshToken := h.gjsonGet content "refresh_token" }, none),
            h.Close resp w2) := by
      simp only [Client.GetTokenWithCode, hreq, hdo, hrd, hb, if_true]
    rw [hrun]
    exact ⟨rfl, rfl, rfl⟩

/-- Claim C10: when the response body of the refresh exchange was read, with text
`content`: if its `"token_type"` is `"Bearer"`, `getToken` returns the `"access_token"`
of `content` with a `nil` error and the client's `RefreshToken` becomes the
`"refresh_token"` of `content`; otherwise it returns an empty access token with an
error whose message is the `"error"` field of `content`, and the client is unchanged. -/
theorem getToken_rotates_or_reports {W R : Type} (h : Http W R) (c : Client) (w : W)
    (content : String) (hread : bodyRead h (refreshForm h c) w content) :
    (h.gjsonGet content "token_type" = "Bearer" →
      (c.getToken h w).1.2.1 = h.gjsonGet content "access_token" ∧
      (c.getToken h w).1.2.2 = none ∧
      (c.getToken h w).1.1 = { c with RefreshToken := h.gjsonGet content "refresh_token" } ∧
      (c.getToken h w).1.1.RefreshToken = h.gjsonGet content "refresh_token") ∧
    (h.gjsonGet content "token_type" ≠ "Bearer" →
      (c.getToken h w).1.2.1 = "" ∧
      (c.getToken h w).1.2.2 = some (h.gjsonGet content "error") ∧
      (c.getToken h w).1.1 = c ∧
      (c.getToken h w).1.1.RefreshToken = c.RefreshToken) := by
  obtain ⟨req, resp, w1, w2, hreq, hdo, hrd⟩ := hread
  simp only [refreshForm] at hreq
  constructor
  · intro hb
    have hrun : c.getToken h w
        = (({ c with RefreshToken := h.gjsonGet content "refresh_token" },
            h.gjsonGet content "access_token", none), h.Close resp w2) := by
      simp only [Client.getToken, hreq, hdo, hrd, hb, if_true]
    rw [hrun]
    exact ⟨rfl, rfl, rfl, rfl⟩
  · intro hne
    have hrun : c.getToken h w
        = ((c, "", some (h.gjsonGet content "error")), h.Close resp w2) := by
      simp only [Client.getToken, hreq, hdo, hrd, hne, if_false]
    rw [hrun]
    exact ⟨rfl, rfl, rfl, rfl⟩

/-- The two branches of claim C9 on the provider stub, for a client made by
`NewClient`: the body `"mac-body"` is returned as the error and the refresh
credential stays empty; the body `"bearer-body"` sets it to `"r2"`. -/
theorem GetTokenWithCode_bearer_marker_witness :
    bodyRead stubHttp (codeForm stubHttp (NewClient "X" "S") "abc123") "mac-body" "mac-body" ∧
    stubHttp.gjsonGet "mac-body" "token_type" ≠ "Bearer" ∧
    ((NewClient "X" "S").GetTokenWithCode stubHttp "abc123" "mac-body").1.2 = some "mac-body" ∧
    ((NewClient "X" "S").GetTokenWithCode stubHttp "abc123" "mac-body").1.1.RefreshToken = "" ∧
    bodyRead stubHttp (codeForm stubHttp (NewClient "X" "S") "abc123") "bearer-body"
      "bearer-body" ∧
    ((NewClient "X" "S").GetTokenWithCode stubHttp "abc123" "bearer-body").1.2 = none ∧
    ((NewClient "X" "S").GetTokenWithCode stubHttp "abc123" "bearer-body").1.1.RefreshToken
      = stubHttp.gjsonGet "bearer-body" "refresh_token" :=
  have hmac : bodyRead stubHttp (codeForm stubHttp (NewClient "X" "S") "abc123") "mac-body"
      "mac-body" := ⟨_, "mac-body", "mac-body", "mac-body", rfl, rfl, rfl⟩
  have hbearer : bodyRead stubHttp (codeForm stubHttp (NewClient "X" "S") "abc123")
      "bearer-body" "bearer-body" := ⟨_, "bearer-body", "bearer-body", "bearer-body", rfl, rfl, rfl⟩
  have h1 := (GetTokenWithCode_bearer_marker stubHttp (NewClient "X" "S") "abc123" "mac-body"
    "mac-body" hmac).1 (by decide)
  have h2 := (GetTokenWithCode_bearer_marker stubHttp (NewClient "X" "S") "abc123"
    "bearer-body" "bearer-body" hbearer).2 (by decide)
  ⟨hmac, by decide, h1.1, h1.2.2.2 "X" "S" rfl, hbearer, h2.1, h2.2.2⟩

/-- The two branches of claim C10 on the provider stub, for a client holding `"r1"`:
the body `"bearer-body"` gives the access token and rotates the credential; the body
`"mac-body"` gives the error field and leaves `"r1"`. -/
theorem getToken_rotates_or_reports_witness :
    bodyRead stubHttp (refreshForm stubHttp storedClient) "bearer-body" "bearer-body" ∧
    stubHttp.gjsonGet "bearer-body" "token_type" = "Bearer" ∧
    (storedClient.getToken stubHttp "bearer-body").1.2.1
      = stubHttp.gjsonGet "bearer-body" "access_token" ∧
    (storedClient.getToken stubHttp "bearer-body").1.2.2 = none ∧
    (storedClient.getToken stubHttp "bearer-body").1.1.RefreshToken
      = stubHttp.gjsonGet "bearer-body" "refresh_token" ∧
    bodyRead stubHttp (refreshForm stubHttp storedClient) "mac-body" "mac-body" ∧
    (storedClient.getToken stubHttp "mac-body").1.2.1 = "" ∧
    (storedClient.getToken stubHttp "mac-body").1.2.2
      = some (stubHttp.gjsonGet "mac-body" "error") ∧
    (storedClient.getToken stubHttp "mac-body").1.1.RefreshToken = storedClient.RefreshToken :=
  have hbearer : bodyRead stubHttp (refreshForm stubHttp storedClient) "bearer-body"
      "bearer-body" := ⟨_, "bearer-body", "bearer-body", "bearer-body", rfl, rfl, rfl⟩
  have hmac : bodyRead stubHttp (refreshForm stubHttp storedClient) "mac-body" "mac-body" :=
    ⟨_, "mac-body", "mac-body", "mac-body", rfl, rfl, rfl⟩
  have h1 := (getToken_rotates_or_reports stubHttp storedClient "bearer-body" "bearer-body"
    hbearer).1 (by decide)
  have h2 := (getToken_rotates_or_reports stubHttp storedClient "mac-body" "mac-body"
    hmac).2 (by decide)
  ⟨hbearer, by decide, h1.1, h1.2.1, h1.2.2.2, hmac, h2.1, h2.2.1, h2.2.2.2⟩

end E5Sub
